import Mathlib

/-!
A shallow embedding of the export/import analyzer (`src/analyzer/export-analyzer.ts`):
regex-based export extraction, import extraction, path resolution, usage matching and
aggregation.  File contents are modelled as `String` / `List Char`; the filesystem is
modelled as the list of paths on which `readFileSync` succeeds; the JS regexes are
embedded as deterministic scanners that mirror the exact patterns of the source
(each regex there is free of genuine backtracking ambiguity except where noted,
because the adjacent character classes are disjoint).
-/

/-- Kind of an exported item, mirroring the `ExportType` union of `src/types/index.ts`. -/
inductive ExportType where
  | function
  | «class»
  | const
  | type
  | interface
  | enum
  | default
  | «variable»
deriving DecidableEq, Repr

/-- One exported item, mirroring `ExportedItem`. -/
structure ExportedItem where
  name : String
  type : ExportType
  file : String
  line : Nat
  isDefault : Bool
  estimatedSize : Nat
deriving DecidableEq, Repr

/-- One import reference, mirroring `ImportReference`. -/
structure ImportReference where
  name : String
  fromFile : String
  toFile : String
  line : Nat
  isDefault : Bool
deriving DecidableEq, Repr

/-- Analysis result for a single export, mirroring `ExportAnalysis`. -/
structure ExportAnalysis where
  «export» : ExportedItem
  usageCount : Nat
  usedIn : List String
  isUnused : Bool
deriving DecidableEq, Repr

/-- Per-file analysis result, mirroring `FileAnalysis`. -/
structure FileAnalysis where
  file : String
  exports : List ExportAnalysis
  unusedCount : Nat
  usedCount : Nat
deriving DecidableEq, Repr

/-- Overall scan result, mirroring `ScanResult`. -/
structure ScanResult where
  files : List FileAnalysis
  totalExports : Nat
  unusedExports : Nat
  usedExports : Nat
  estimatedSavings : Nat
deriving DecidableEq, Repr

/-- JS `\s` on the ASCII range (the sources analysed here contain no exotic
Unicode whitespace, so the ASCII subset is a faithful model). -/
def isJsSpace (c : Char) : Bool :=
  c = ' ' || c = '\t' || c = '\n' || c = '\r' || c = '\x0b' || c = '\x0c'

/-- JS `\w`, i.e. `[A-Za-z0-9_]`. -/
def isWordChar (c : Char) : Bool :=
  c.isAlpha || c.isDigit || c = '_'

/-- JS line terminators relevant to the `m` flag (`\n` and `\r`; the sources
contain no ` `/` `). -/
def isLineBreak (c : Char) : Bool :=
  c = '\n' || c = '\r'

/-- Match a literal character sequence, returning the rest of the input. -/
def litM : List Char → List Char → Option (List Char)
  | [], s => some s
  | _ :: _, [] => none
  | c :: cs, d :: ds => if c = d then litM cs ds else none

/-- Match `\s+` (at least one JS whitespace character, maximal munch; in every
pattern of the source the following atom cannot match whitespace, so maximal
munch coincides with the backtracking semantics). -/
def spaces1 : List Char → Option (List Char)
  | [] => none
  | c :: rest => if isJsSpace c then some (rest.dropWhile isJsSpace) else none

/-- Match `(\w+)` (maximal munch), returning the capture and the rest. -/
def word1 (s : List Char) : Option (List Char × List Char) :=
  let w := s.takeWhile isWordChar
  if w.isEmpty then none else some (w, s.dropWhile isWordChar)

/-- Match one expected character. -/
def chomp (c : Char) : List Char → Option (List Char)
  | [] => none
  | d :: rest => if d = c then some rest else none

def kwExport : List Char := "export".data
def kwImport : List Char := "import".data
def kwFunction : List Char := "function".data
def kwAsync : List Char := "async".data
def kwClass : List Char := "class".data
def kwConst : List Char := "const".data
def kwLet : List Char := "let".data
def kwVar : List Char := "var".data
def kwType : List Char := "type".data
def kwInterface : List Char := "interface".data
def kwEnum : List Char := "enum".data
def kwDefault : List Char := "default".data
def kwFrom : List Char := "from".data
def kwAs : List Char := "as".data

/-- Match a chain `\s+kw1\s+kw2...` of whitespace-separated literal keywords. -/
def matchKws : List (List Char) → List Char → Option (List Char)
  | [], s => some s
  | kw :: rest, s => do
    let s ← spaces1 s
    let s ← litM kw s
    matchKws rest s

/-- Matcher for the patterns `^export\s+<kw...>\s+(\w+)` (used for `function`,
`async function`, `class`, `type`, `interface`, `enum`). -/
def mExportKw (kws : List (List Char)) (s : List Char) : Option (List Char × List Char) := do
  let s ← litM kwExport s
  let s ← matchKws kws s
  let s ← spaces1 s
  word1 s

/-- Matcher for `^export\s+<kw>\s+(\w+)\s*[=:]` (used for `const`, `let`, `var`). -/
def mExportDecl (kw : List Char) (s : List Char) : Option (List Char × List Char) := do
  let p ← mExportKw [kw] s
  let rest := p.2.dropWhile isJsSpace
  match rest with
  | [] => none
  | c :: r => if c = '=' || c = ':' then some (p.1, r) else none

/-- Matcher for `^export\s+default\s+(?:function|class)\s+(\w+)?`; the name
capture is optional. -/
def mExportDefaultDecl (s : List Char) : Option (Option (List Char) × List Char) := do
  let s ← litM kwExport s
  let s ← spaces1 s
  let s ← litM kwDefault s
  let s ← spaces1 s
  let s ← match litM kwFunction s with
          | some r => some r
          | none => litM kwClass s
  let s ← spaces1 s
  match word1 s with
  | some p => some (some p.1, p.2)
  | none => some (none, s)

/-- True when the position is at a multiline `$`: end of input or before a line
terminator. -/
def atEol : List Char → Bool
  | [] => true
  | c :: _ => isLineBreak c

/-- Match `;?$` at the current position, preferring to consume the `;`. -/
def semiEolAt (u : List Char) : Option (List Char) :=
  match u with
  | c :: rest =>
    if c = ';' then (if atEol rest then some rest else none)
    else if atEol u then some u else none
  | [] => some []

/-- Match `\s*;?$` with the greedy backtracking semantics of the JS regex:
consume as much whitespace as possible, retreating one character at a time
until `;?$` can match. -/
def semiEol : List Char → Option (List Char)
  | [] => some []
  | c :: rest =>
    if isJsSpace c then
      match semiEol rest with
      | some r => some r
      | none => semiEolAt (c :: rest)
    else semiEolAt (c :: rest)

/-- Matcher for `^export\s+default\s+(\w+)\s*;?$` (with the `m` flag). -/
def mExportDefaultName (s : List Char) : Option (List Char × List Char) := do
  let s ← litM kwExport s
  let s ← spaces1 s
  let s ← litM kwDefault s
  let s ← spaces1 s
  let p ← word1 s
  let r ← semiEol p.2
  some (p.1, r)

/-- Matcher for `^export\s*\x7b([^\x7d]+)\x7d`, capturing the brace contents. -/
def mExportList (s : List Char) : Option (List Char × List Char) := do
  let s ← litM kwExport s
  let s := s.dropWhile isJsSpace
  let s ← chomp '\x7b' s
  let blob := s.takeWhile (fun c => c != '\x7d')
  if blob.isEmpty then none
  else
    match chomp '\x7d' (s.dropWhile (fun c => c != '\x7d')) with
    | some r => some (blob, r)
    | none => none

def isQuote (c : Char) : Bool := c = '\x27' || c = '"'

/-- Match `['"]([^'"]+)['"]`: either quote opens, at least one non-quote
character is captured, and either quote closes (the JS pattern does not require
the two quotes to agree). -/
def quotedPath (s : List Char) : Option (List Char × List Char) :=
  match s with
  | [] => none
  | c :: rest =>
    if isQuote c then
      let p := rest.takeWhile (fun d => !(isQuote d))
      if p.isEmpty then none
      else
        match rest.dropWhile (fun d => !(isQuote d)) with
        | d :: r2 => if isQuote d then some (p, r2) else none
        | [] => none
    else none

/-- Matcher for the named-import regex
`import\s*\x7b([^\x7d]+)\x7d\s*from\s*['"]([^'"]+)['"]`, capturing the name
blob and the specifier. -/
def mNamedImport (s : List Char) : Option ((List Char × List Char) × List Char) := do
  let s ← litM kwImport s
  let s := s.dropWhile isJsSpace
  let s ← chomp '\x7b' s
  let blob := s.takeWhile (fun c => c != '\x7d')
  if blob.isEmpty then none
  else do
    let s ← chomp '\x7d' (s.dropWhile (fun c => c != '\x7d'))
    let s := s.dropWhile isJsSpace
    let s ← litM kwFrom s
    let s := s.dropWhile isJsSpace
    let p ← quotedPath s
    some ((blob, p.1), p.2)

/-- Tail `\s+from\s*['"]([^'"]+)['"]` shared by the default-import matcher. -/
def fromTail (s : List Char) : Option (List Char × List Char) := do
  let s ← spaces1 s
  let s ← litM kwFrom s
  let s := s.dropWhile isJsSpace
  quotedPath s

/-- Matcher for the default-import regex
`import\s+(\w+)(?:\s*,\s*\x7b[^\x7d]*\x7d)?\s+from\s*['"]([^'"]+)['"]`.
The optional named-list group is tried first and abandoned if the tail then
fails, mirroring the regex backtracking. -/
def mDefaultImport (s : List Char) : Option ((List Char × List Char) × List Char) := do
  let s ← litM kwImport s
  let s ← spaces1 s
  let p ← word1 s
  let w := p.1
  let s := p.2
  let withGroup : Option (List Char × List Char) := do
    let t := s.dropWhile isJsSpace
    let t ← chomp ',' t
    let t := t.dropWhile isJsSpace
    let t ← chomp '\x7b' t
    let t := t.dropWhile (fun c => c != '\x7d')
    let t ← chomp '\x7d' t
    fromTail t
  match withGroup with
  | some q => some ((w, q.1), q.2)
  | none =>
    match fromTail s with
    | some q => some ((w, q.1), q.2)
    | none => none

/-- One step of the `regex.exec` loop: scan left to right, trying the matcher
at every position (at line starts only, when `anchored` models the `^...m`
combination), and resume after the end of each match, mirroring `lastIndex`.
The fuel is the input length plus one; every step consumes at least one
character. -/
def scanAux {α : Type} (m : List Char → Option (α × List Char)) (anchored : Bool) :
    Nat → List Char → Nat → Bool → List (Nat × α)
  | 0, _, _, _ => []
  | Nat.succ fuel, s, i, atLS =>
    match s with
    | [] => []
    | c :: rest =>
      if anchored && !atLS then
        scanAux m anchored fuel rest (i + 1) (isLineBreak c)
      else
        match m s with
        | some (a, r) =>
          let consumed := s.length - r.length
          (i, a) :: scanAux m anchored fuel r (i + consumed)
            (isLineBreak ((s.take consumed).getLastD c))
        | none => scanAux m anchored fuel rest (i + 1) (isLineBreak c)

/-- All matches of a pattern over the content, with their start indices. -/
def scanAll {α : Type} (m : List Char → Option (α × List Char)) (anchored : Bool)
    (cs : List Char) : List (Nat × α) :=
  scanAux m anchored (cs.length + 1) cs 0 true

/-- The `getLineNumber` helper of the source: one plus the number of newline
characters before the index. -/
def getLineNumber (cs : List Char) (i : Nat) : Nat :=
  1 + ((cs.take i).filter (fun c => c == '\n')).length

/-- Take characters up to (excluding) the first blank line (`\n\n`), or the
whole input, mirroring `content.indexOf('\n\n', start)` followed by `slice`. -/
def takeToBlank : List Char → List Char
  | [] => []
  | c :: rest =>
    if c = '\n' then
      match rest with
      | d :: _ => if d = '\n' then [] else c :: takeToBlank rest
      | [] => [c]
    else c :: takeToBlank rest

/-- The text from a match start to the next blank line or end of file. -/
def sliceToBlank (cs : List Char) (i : Nat) : List Char :=
  takeToBlank (cs.drop i)

/-- The `estimateSize` function of the source: `Math.round(code.length * 0.6)`.
For a natural length `n`, `0.6 * n` is never a half-integer (`6 n mod 10` is
even), and the double-precision error of `n * 0.6` is far too small to cross a
rounding boundary for any representable length, so `Math.round` agrees with
exact rounding to nearest, i.e. `(6 n + 5) / 10`. -/
def estimateSize (code : String) : Nat :=
  (6 * code.length + 5) / 10

/-- Split on a literal separator character, mirroring JS `split(sep)`. -/
def splitOnChar (sep : Char) : List Char → List (List Char)
  | [] => [[]]
  | c :: rest =>
    if c = sep then [] :: splitOnChar sep rest
    else
      match splitOnChar sep rest with
      | piece :: pieces => (c :: piece) :: pieces
      | [] => [[c]]

/-- JS `split(',')`. -/
def splitOnComma (s : List Char) : List (List Char) :=
  splitOnChar ',' s

/-- JS `trim` on the ASCII whitespace set. -/
def trimChars (s : List Char) : List Char :=
  ((s.dropWhile isJsSpace).reverse.dropWhile isJsSpace).reverse

/-- Match the separator regex `\s+as\s+` at the current position. -/
def matchAsSep (s : List Char) : Option (List Char) := do
  let s ← spaces1 s
  let s ← litM kwAs s
  spaces1 s

/-- Worker for `splitAs`: scan left to right for the leftmost separator. -/
def splitAsAux : Nat → List Char → List Char → List (List Char)
  | _, acc, [] => [acc.reverse]
  | 0, acc, s => [acc.reverse ++ s]
  | Nat.succ fuel, acc, c :: rest =>
    match matchAsSep (c :: rest) with
    | some r => acc.reverse :: splitAsAux fuel [] r
    | none => splitAsAux fuel (c :: acc) rest

/-- JS `split(/\s+as\s+/)`. -/
def splitAs (s : List Char) : List (List Char) :=
  splitAsAux (s.length + 1) [] s

/-- The names produced from an `export \x7b ... \x7d` blob: split on commas,
trim, split on ` as `, keep the last (post-`as`) part, trim again. -/
def exportListNames (blob : List Char) : List (List Char) :=
  (splitOnComma blob).map (fun n => trimChars ((splitAs (trimChars n)).getLastD []))

/-- The names produced from an `import \x7b ... \x7d` blob: like
`exportListNames` but keeping the first (pre-`as`) part. -/
def importListNames (blob : List Char) : List (List Char) :=
  (splitOnComma blob).map (fun n => trimChars ((splitAs (trimChars n)).headD []))

/-- The eleven declaration patterns of `extractExports`, in source order, each
paired with the `ExportType` it tags.  The name capture is mandatory in all but
the `export default function|class` pattern. -/
def exportPatterns :
    List ((List Char → Option (Option (List Char) × List Char)) × ExportType) :=
  [ (fun s => (mExportKw [kwFunction] s).map (fun p => (some p.1, p.2)), ExportType.function),
    (fun s => (mExportKw [kwAsync, kwFunction] s).map (fun p => (some p.1, p.2)), ExportType.function),
    (fun s => (mExportKw [kwClass] s).map (fun p => (some p.1, p.2)), ExportType.«class»),
    (fun s => (mExportDecl kwConst s).map (fun p => (some p.1, p.2)), ExportType.const),
    (fun s => (mExportDecl kwLet s).map (fun p => (some p.1, p.2)), ExportType.«variable»),
    (fun s => (mExportDecl kwVar s).map (fun p => (some p.1, p.2)), ExportType.«variable»),
    (fun s => (mExportKw [kwType] s).map (fun p => (some p.1, p.2)), ExportType.type),
    (fun s => (mExportKw [kwInterface] s).map (fun p => (some p.1, p.2)), ExportType.interface),
    (fun s => (mExportKw [kwEnum] s).map (fun p => (some p.1, p.2)), ExportType.enum),
    (mExportDefaultDecl, ExportType.default),
    (fun s => (mExportDefaultName s).map (fun p => (some p.1, p.2)), ExportType.default) ]

/-- The declaration-pattern loop of `extractExports` (lines 79-99 of the
source): every match of every pattern is pushed, with no deduplication; the
name falls back to the literal `default` when the capture is absent. -/
def patternItems (cs : List Char) (filePath : String) : List ExportedItem :=
  exportPatterns.foldl (fun acc pm =>
    acc ++ (scanAll pm.1 true cs).map (fun im =>
      { name := String.mk (im.2.getD kwDefault),
        type := pm.2,
        file := filePath,
        line := getLineNumber cs im.1,
        isDefault := pm.2 == ExportType.default,
        estimatedSize := estimateSize (String.mk (sliceToBlank cs im.1)) })) []

/-- The `extractExports` function of the source: the pattern loop followed by
the `export \x7b name1, name2 \x7d` block, whose entries are pushed with kind
`const`, a fixed estimated size of 100, and only when no already-collected
export has the same name. -/
def extractExports (content : String) (filePath : String) : List ExportedItem :=
  let cs := content.data
  let base := patternItems cs filePath
  (scanAll mExportList true cs).foldl (fun exps im =>
    (exportListNames im.2).foldl (fun exps nm =>
      if nm.isEmpty then exps
      else if exps.any (fun e => e.name == String.mk nm) then exps
      else exps ++ [{ name := String.mk nm, type := ExportType.const, file := filePath,
                      line := getLineNumber cs im.1, isDefault := false,
                      estimatedSize := 100 }]) exps) base

/-- Node `path.dirname` for the slash-separated file paths this scan produces
(absolute paths without trailing slashes). -/
def dirname (p : String) : String :=
  let cut := p.data.reverse.dropWhile (fun c => c != '/')
  match cut with
  | [] => "."
  | [_] => "/"
  | _ :: rest => String.mk rest.reverse

/-- True when the string starts with the given character (the only prefixes
the source tests via `startsWith` are the single characters `.` and `/`). -/
def startsWithChar (s : String) (c : Char) : Bool :=
  match s.data with
  | [] => false
  | d :: _ => d = c

/-- Normalize path segments, resolving `.` and `..`; the accumulator is kept
reversed. -/
def normalizeSegs (acc : List (List Char)) : List (List Char) → List (List Char)
  | [] => acc.reverse
  | seg :: rest =>
    if seg.isEmpty || seg == (".".data) then normalizeSegs acc rest
    else if seg == ("..".data) then normalizeSegs acc.tail rest
    else normalizeSegs (seg :: acc) rest

/-- Join segments with `/` separators. -/
def joinSlash : List (List Char) → List Char
  | [] => []
  | [s] => s
  | s :: rest => s ++ '/' :: joinSlash rest

/-- Node `path.resolve(dir, spec)` for an absolute `dir` (POSIX separators):
join and normalize. -/
def resolvePath (dir spec : String) : String :=
  let full := if startsWithChar spec '/' then spec.data else dir.data ++ '/' :: spec.data
  String.mk ('/' :: joinSlash (normalizeSegs [] (splitOnChar '/' full)))

/-- The extension probe list of `resolveImportPath`, in source order.  The
literal base path is absent: the source loop only ever probes `resolved + ext`. -/
def extensions : List String :=
  [".ts", ".tsx", ".js", ".jsx", ".mjs", "/index.ts", "/index.tsx", "/index.js"]

/-- The `resolveImportPath` function of the source.  `fs` models the
filesystem as the list of paths on which `readFileSync` succeeds; `rootDir` is
accepted and ignored exactly as in the source. -/
def resolveImportPath (fs : List String) (importPath : String) (fromFile : String)
    (rootDir : String) : String :=
  let dir := dirname fromFile
  let resolved := resolvePath dir importPath
  match extensions.find? (fun ext => fs.contains (resolved ++ ext)) with
  | some ext => resolved ++ ext
  | none => resolved

/-- The `extractImports` function of the source: the named-import loop then
the default-import loop.  The source also declares an `importPatterns` array
containing a namespace-import regex, but that array is never used, so no
matcher for `import * as name` appears here.  Bare specifiers (not starting
with `.` or `/`) are skipped before resolution. -/
def extractImports (fs : List String) (content : String) (filePath : String)
    (rootDir : String) : List ImportReference :=
  let cs := content.data
  let named := (scanAll mNamedImport false cs).foldl (fun acc im =>
    let fromPath := String.mk im.2.2
    if !(startsWithChar fromPath '.') && !(startsWithChar fromPath '/') then acc
    else
      let resolvedPath := resolveImportPath fs fromPath filePath rootDir
      let line := getLineNumber cs im.1
      acc ++ (importListNames im.2.1).foldl (fun acc2 nm =>
        if nm.isEmpty then acc2
        else acc2 ++ [{ name := String.mk nm, fromFile := resolvedPath,
                        toFile := filePath, line := line, isDefault := false }]) []) []
  let defaults := (scanAll mDefaultImport false cs).foldl (fun acc im =>
    let fromPath := String.mk im.2.2
    if !(startsWithChar fromPath '.') && !(startsWithChar fromPath '/') then acc
    else
      let resolvedPath := resolveImportPath fs fromPath filePath rootDir
      let line := getLineNumber cs im.1
      acc ++ [{ name := "default", fromFile := resolvedPath, toFile := filePath,
                line := line, isDefault := true }]) []
  named ++ defaults

/-- True when the string ends with the given character suffix. -/
def endsWithChars (p : String) (suf : List Char) : Bool :=
  p.data.reverse.take suf.length == suf.reverse

/-- Remove the last `n` characters. -/
def dropRightChars (p : String) (n : Nat) : String :=
  String.mk (p.data.take (p.data.length - n))

/-- The extension-stripping `replace(/\.(ts|tsx|js|jsx|mjs)$/, '')` used by the
usage matcher; the leftmost regex match is the longest matching suffix. -/
def stripSrcExt (p : String) : String :=
  if endsWithChars p (".tsx".data) then dropRightChars p 4
  else if endsWithChars p (".jsx".data) then dropRightChars p 4
  else if endsWithChars p (".mjs".data) then dropRightChars p 4
  else if endsWithChars p (".ts".data) then dropRightChars p 3
  else if endsWithChars p (".js".data) then dropRightChars p 3
  else p

/-- The per-import predicate of the usage filter (lines 277-287 of the source):
same module after extension stripping, then flag equality for default exports
and name equality otherwise. -/
def importMatches (exp : ExportedItem) (imp : ImportReference) : Bool :=
  let isSameFile := imp.fromFile == exp.file
    || stripSrcExt imp.fromFile == stripSrcExt exp.file
  if !isSameFile then false
  else if exp.isDefault then imp.isDefault
  else imp.name == exp.name

/-- Worker for `dedupFiles` carrying the set of already-seen values. -/
def dedupAux (seen : List String) : List String → List String
  | [] => []
  | x :: rest =>
    if seen.contains x then dedupAux seen rest
    else x :: dedupAux (x :: seen) rest

/-- `[...new Set(xs)]`: deduplicate keeping first occurrences in order. -/
def dedupFiles (l : List String) : List String :=
  dedupAux [] l

/-- Build one `ExportAnalysis` from the full import list, mirroring the body of
the per-export loop of `analyzeExports`. -/
def buildAnalysis (allImports : List ImportReference) (exp : ExportedItem) : ExportAnalysis :=
  let usages := allImports.filter (fun imp => importMatches exp imp)
  let usedIn := dedupFiles (usages.map (fun u => u.toFile))
  { «export» := exp, usageCount := usedIn.length, usedIn := usedIn,
    isUnused := usedIn.length == 0 }

/-- Insert an analysis into the per-file map (a JS `Map` iterated in key
insertion order, modelled as an association list). -/
def addToFileMap : List FileAnalysis → ExportedItem → ExportAnalysis → List FileAnalysis
  | [], exp, a =>
    [{ file := exp.file, exports := [a],
       unusedCount := if a.isUnused then 1 else 0,
       usedCount := if a.isUnused then 0 else 1 }]
  | fa :: rest, exp, a =>
    if fa.file == exp.file then
      { fa with exports := fa.exports ++ [a],
                unusedCount := fa.unusedCount + (if a.isUnused then 1 else 0),
                usedCount := fa.usedCount + (if a.isUnused then 0 else 1) } :: rest
    else fa :: addToFileMap rest exp a

/-- Insert keeping the stable descending-by-`unusedCount` order: the new
element goes after every element with an `unusedCount` at least its own. -/
def insertByUnused (fa : FileAnalysis) : List FileAnalysis → List FileAnalysis
  | [] => [fa]
  | g :: rest =>
    if g.unusedCount < fa.unusedCount then fa :: g :: rest
    else g :: insertByUnused fa rest

/-- The stable sort `(a, b) => b.unusedCount - a.unusedCount` of the source
(JS `Array.sort` is stable, so its output is the unique stable descending
order). -/
def sortByUnusedDesc (l : List FileAnalysis) : List FileAnalysis :=
  l.foldl (fun acc fa => insertByUnused fa acc) []

/-- The usage-matching and aggregation tail of `analyzeExports` (lines 267-341
of the source), as a function of the combined export and import lists. -/
def analyzeLists (allExports : List ExportedItem) (allImports : List ImportReference)
    (includeTypes : Bool) : ScanResult :=
  let filteredExports := if includeTypes then allExports
    else allExports.filter (fun e =>
      !(e.type == ExportType.type) && !(e.type == ExportType.interface))
  let fileMap := filteredExports.foldl
    (fun m exp => addToFileMap m exp (buildAnalysis allImports exp)) []
  let fileAnalyses := sortByUnusedDesc
    (fileMap.filter (fun f => decide (0 < f.exports.length)))
  let totalExports := fileAnalyses.foldl (fun acc fa => acc + fa.exports.length) 0
  let unusedExports := fileAnalyses.foldl (fun acc fa => acc + fa.unusedCount) 0
  let estimatedSavings := fileAnalyses.foldl (fun acc fa =>
    acc + (fa.exports.filter (fun e => e.isUnused)).foldl
      (fun s e => s + e.«export».estimatedSize) 0) 0
  { files := fileAnalyses, totalExports := totalExports, unusedExports := unusedExports,
    usedExports := totalExports - unusedExports, estimatedSavings := estimatedSavings }

/-- The per-file collection loop of `analyzeExports`: a file whose content is
`none` (its `readFileSync` threw) is skipped entirely, contributing no exports
and no imports; the others are extracted and appended in file order. -/
def collectFiles (fs : List String) (rootDir : String)
    (files : List (String × Option String)) : List ExportedItem × List ImportReference :=
  files.foldl (fun acc f =>
    match f.2 with
    | none => acc
    | some content =>
      (acc.1 ++ extractExports content f.1, acc.2 ++ extractImports fs content f.1 rootDir))
    ([], [])

/-- `analyzeExports` applied to an already-produced traversal result: collect
per file, then match and aggregate. -/
def analyzeExportsCore (fs : List String) (rootDir : String) (includeTypes : Bool)
    (files : List (String × Option String)) : ScanResult :=
  let c := collectFiles fs rootDir files
  analyzeLists c.1 c.2 includeTypes

/-- The `analyzeExports` entry point.  Modelled from the spec: the directory
traversal collaborator (the external `glob` call, which is not part of this
repository) is specified only by its interface, so its outcome is an
`Except`-valued input: an invocation-level failure such as a missing root
directory is its `error` case, and the source awaits it outside any
`try`/`catch`, so the rejection propagates to the caller before any report is
built. -/
def analyzeExports (fs : List String) (rootDir : String) (includeTypes : Bool)
    (globResult : Except String (List (String × Option String))) :
    Except String ScanResult :=
  match globResult with
  | Except.error e => Except.error e
  | Except.ok files => Except.ok (analyzeExportsCore fs rootDir includeTypes files)

/-- Folding addition of a projection equals the initial value plus the sum of
the mapped list. -/
theorem foldl_add_map {α : Type} (f : α → Nat) (n : Nat) (l : List α) :
    l.foldl (fun acc x => acc + f x) n = n + (l.map f).sum := by
  induction l generalizing n with
  | nil => simp
  | cons x xs ih => simp [ih, Nat.add_assoc]

/-- C1 counterexample: a file whose only reference to `./a` is the namespace
binding `import * as ns from ./a` leaves the export `foo` of `a.ts` with
`isUnused = true`, while the claim says every export of the target file is
marked used (`isUnused = false`). -/
theorem namespace_import_marks_used_cex :
    (analyzeExportsCore (["/r/a.ts", "/r/b.ts"]) ("/r") false
        [("/r/a.ts", some ("export const foo = 1;\n")),
         ("/r/b.ts", some ("import * as ns from \x27./a\x27;\n"))]).files.map
      (fun fa => fa.exports.map (fun x => (x.«export».name, x.isUnused)))
      = [[("foo", true)]] := by decide

/-- C1 amended: namespace imports are not recognized at all (the pattern array
declaring the namespace regex is never used), so they produce no
`ImportReference`; an export consumed only through a namespace import is
therefore reported unused rather than conservatively marked used. -/
theorem namespace_import_amended :
    extractImports (["/r/a.ts", "/r/b.ts"]) ("import * as ns from \x27./a\x27;\n")
        ("/r/b.ts") ("/r") = []
    ∧ (analyzeExportsCore (["/r/a.ts", "/r/b.ts"]) ("/r") false
        [("/r/a.ts", some ("export const foo = 1;\n")),
         ("/r/b.ts", some ("import * as ns from \x27./a\x27;\n"))]).unusedExports = 1
    ∧ (analyzeExportsCore (["/r/a.ts", "/r/b.ts"]) ("/r") false
        [("/r/a.ts", some ("export const foo = 1;\n")),
         ("/r/b.ts", some ("import * as ns from \x27./a\x27;\n"))]).usedExports = 0 := by
  decide

/-- C2 counterexample: two `export const a` declarations in one file yield two
`ExportedItem` entries that share the name `a` and `isDefaultExport = false`,
violating the claimed invariant. -/
theorem named_dedup_invariant_cex :
    ((extractExports ("export const a = 1;\nexport const a = 2;\n") ("/r/d.ts")).filter
      (fun e => e.name == "a" && !e.isDefault)).length = 2 := by decide

/-- C2 amended: deduplication by name applies only to `export \x7b ... \x7d`
list entries, which are skipped when any already-collected export of the file
has the same name; declaration-pattern matches are never deduplicated, so an
identifier declared (or matched) more than once yields one entry per match. -/
theorem named_dedup_amended :
    (extractExports ("export const foo = 1;\n\nexport \x7b foo, zap \x7d;\n") ("/r/f.ts")).map
      (fun e => e.name) = ["foo", "zap"]
    ∧ (extractExports ("export type Foo = 1;\nexport const Foo = 2;\n") ("/r/g.ts")).map
      (fun e => (e.name, e.isDefault)) = [("Foo", false), ("Foo", false)] := by decide

/-- C3 counterexample: with both the literal base path `/r/x` and `/r/x.ts`
present on the filesystem, resolving `./x` from `/r/a.ts` returns `/r/x.ts`,
not the literal base path the claim says is probed first. -/
theorem resolver_literal_first_cex :
    resolveImportPath (["/r/x", "/r/x.ts"]) ("./x") ("/r/a.ts") ("/r") = "/r/x.ts"
    ∧ resolveImportPath (["/r/x", "/r/x.ts"]) ("./x") ("/r/a.ts") ("/r") ≠ "/r/x" := by
  decide

/-- When the predicate holds at index `i` and fails at every earlier index,
`find?` returns exactly the element at index `i`. -/
theorem find?_first_at {α : Type} (p : α → Bool) :
    ∀ (l : List α) (i : Nat) (hi : i < l.length), p (l.get ⟨i, hi⟩) = true →
      (∀ (j : Nat) (hj : j < l.length), j < i → p (l.get ⟨j, hj⟩) = false) →
      l.find? p = some (l.get ⟨i, hi⟩) := by
  intro l
  induction l with
  | nil =>
    intro i hi
    exact absurd hi (Nat.not_lt_zero i)
  | cons x xs ih =>
    intro i hi hp hprev
    cases i with
    | zero =>
      exact List.find?_cons_of_pos _ hp
    | succ k =>
      have hx : p x = false := hprev 0 (Nat.succ_pos _) (Nat.succ_pos k)
      rw [List.find?_cons_of_neg _ (by rw [hx]; exact Bool.false_ne_true)]
      exact ih k (Nat.lt_of_succ_lt_succ hi) hp
        (fun j hj hjk => hprev (j + 1) (Nat.succ_lt_succ hj) (Nat.succ_lt_succ hjk))

/-- C3 amended: the resolver never probes the literal joined base path; it
probes only the eight extension-suffixed candidates in the fixed order `.ts`,
`.tsx`, `.js`, `.jsx`, `.mjs`, `/index.ts`, `/index.tsx`, `/index.js`:
whenever the candidate at position `i` of that list exists on the filesystem
and every earlier candidate does not, that candidate is returned, and the base
path is returned verbatim exactly when no candidate exists. -/
theorem resolver_probe_amended (fs : List String) (importPath fromFile rootDir : String) :
    (∀ (i : Nat) (hi : i < extensions.length),
        fs.contains (resolvePath (dirname fromFile) importPath
          ++ extensions.get ⟨i, hi⟩) = true →
        (∀ (j : Nat) (hj : j < extensions.length), j < i →
          fs.contains (resolvePath (dirname fromFile) importPath
            ++ extensions.get ⟨j, hj⟩) = false) →
        resolveImportPath fs importPath fromFile rootDir
          = resolvePath (dirname fromFile) importPath ++ extensions.get ⟨i, hi⟩)
    ∧ ((∀ ext ∈ extensions,
          fs.contains (resolvePath (dirname fromFile) importPath ++ ext) = false) →
      resolveImportPath fs importPath fromFile rootDir
        = resolvePath (dirname fromFile) importPath) := by
  constructor
  · intro i hi hp hprev
    have hf : extensions.find?
        (fun ext => fs.contains (resolvePath (dirname fromFile) importPath ++ ext))
        = some (extensions.get ⟨i, hi⟩) :=
      find?_first_at _ extensions i hi hp hprev
    simp only [resolveImportPath]
    rw [hf]
  · intro h
    have hn : extensions.find?
        (fun ext => fs.contains (resolvePath (dirname fromFile) importPath ++ ext)) = none :=
      List.find?_eq_none.mpr (fun x hx => by rw [h x hx]; exact Bool.false_ne_true)
    simp only [resolveImportPath]
    rw [hn]

/-- C3 witness: the amended probe theorem applied at a concrete filesystem
where only `/r/x.tsx` exists, so the probe at position 1 fires after the
probe at position 0 (`.ts`) fails. -/
theorem resolver_probe_amended_witness :
    resolveImportPath (["/r/x.tsx"]) ("./x") ("/r/a.ts") ("/r")
      = resolvePath (dirname ("/r/a.ts")) ("./x") ++ ".tsx" :=
  (resolver_probe_amended (["/r/x.tsx"]) ("./x") ("/r/a.ts") ("/r")).1 1 (by decide)
    (by decide)
    (fun j hj hj1 => by
      have hj0 : j = 0 := Nat.lt_one_iff.mp hj1
      subst hj0
      show (["/r/x.tsx"].contains (resolvePath (dirname ("/r/a.ts")) ("./x") ++ ".ts"))
        = false
      decide)

/-- C4 counterexample: the symbol extracted from `export \x7b foo \x7d` has
`estimatedSize = 100`, not the size-estimation function applied to the text
from the match start to the next blank line or end of file. -/
theorem size_estimate_cex :
    (extractExports ("export \x7b foo \x7d") ("/r/e.ts")).map (fun e => e.estimatedSize)
      ≠ [estimateSize ("export \x7b foo \x7d")] := by decide

/-- C4 amended: only declaration-pattern symbols get the size-estimation
function applied to the text from the match start to the next blank line or
end of file; symbols arising from `export \x7b ... \x7d` re-export lists get
the fixed estimate 100. -/
theorem size_estimate_amended :
    (extractExports ("export function foo()\nbody\n\nafter") ("/r/h.ts")).map
      (fun e => e.estimatedSize) = [estimateSize ("export function foo()\nbody")]
    ∧ (extractExports ("export \x7b foo \x7d") ("/r/e.ts")).map
      (fun e => e.estimatedSize) = [100] := by decide

/-- C5: an invocation-level traversal failure propagates to the caller as an
error before any report is produced (all-or-nothing), while a single
unreadable file is skipped, contributing nothing and never aborting the scan. -/
theorem analyze_error_handling (fs : List String) (rootDir : String) (includeTypes : Bool)
    (e : String) (p : String) (rest : List (String × Option String)) :
    analyzeExports fs rootDir includeTypes (Except.error e) = Except.error e
    ∧ analyzeExportsCore fs rootDir includeTypes ((p, none) :: rest)
        = analyzeExportsCore fs rootDir includeTypes rest :=
  ⟨rfl, rfl⟩

/-- C6: for a default export, the usage matcher ignores names entirely: the
result is invariant under changing the import's local name, and whenever its
resolved source file denotes the export's file (equality after
stripping known source extensions) the match outcome is exactly the
`isDefaultImport` flag. -/
theorem default_match_ignores_names (exp : ExportedItem) (imp : ImportReference)
    (hd : exp.isDefault = true) :
    (∀ n : String, importMatches exp { imp with name := n } = importMatches exp imp)
    ∧ (stripSrcExt imp.fromFile = stripSrcExt exp.file →
        importMatches exp imp = imp.isDefault) := by
  constructor
  · intro n
    simp [importMatches, hd]
  · intro hs
    simp [importMatches, hd, hs]

/-- C6 witness: a default export named `run` is matched by a default import
bound to a different local name, across the `.js`/`.ts` extension difference. -/
theorem default_match_ignores_names_witness :
    importMatches
      { name := "run", type := ExportType.default, file := "/r/a.ts", line := 1,
        isDefault := true, estimatedSize := 10 }
      { name := "somethingElse", fromFile := "/r/a.js", toFile := "/r/b.ts", line := 1,
        isDefault := true } = true :=
  (default_match_ignores_names
      { name := "run", type := ExportType.default, file := "/r/a.ts", line := 1,
        isDefault := true, estimatedSize := 10 }
      { name := "somethingElse", fromFile := "/r/a.js", toFile := "/r/b.ts", line := 1,
        isDefault := true } rfl).2 (by decide)

/-- C7: the re-export list `export \x7b foo, bar as baz \x7d` yields symbols
named by the post-`as` identifiers (`foo` and `baz`), each of kind `const`,
and the named-import list `import \x7b a, b as c \x7d` records the pre-`as`
identifiers (`a` and `b`) as the reference names, so the two conventions line
up for matching. -/
theorem reexport_alias_roundtrip :
    (extractExports ("export \x7b foo, bar as baz \x7d") ("/r/a.ts")).map
      (fun e => (e.name, e.type))
      = [("foo", ExportType.const), ("baz", ExportType.const)]
    ∧ (extractImports (["/r/x.ts"]) ("import \x7b a, b as c \x7d from \x27./x\x27")
        ("/r/b.ts") ("/r")).map (fun i => (i.name, i.isDefault))
      = [("a", false), ("b", false)] := by decide

/-- C10: a combined default-plus-named import `import d, \x7b a \x7d from ./x`
produces exactly one default reference and no reference for the trailing named
list, so a named export consumed only through it is reported unused while the
default export is matched. -/
theorem combined_import_default_only :
    extractImports (["/r/x.ts"]) ("import d, \x7b a \x7d from \x27./x\x27\n")
        ("/r/b.ts") ("/r")
      = [{ name := "default", fromFile := "/r/x.ts", toFile := "/r/b.ts", line := 1,
           isDefault := true }]
    ∧ (analyzeExportsCore (["/r/x.ts", "/r/b.ts"]) ("/r") false
        [("/r/x.ts", some ("export const a = 1;\nexport default run;\n")),
         ("/r/b.ts", some ("import d, \x7b a \x7d from \x27./x\x27\n"))]).files.map
        (fun fa => fa.exports.map (fun x => (x.«export».name, x.isUnused)))
      = [[("a", true), ("run", false)]] := by decide

/-- Membership in the per-file map after one insertion: the member's file is
the inserted export's file or that of an entry already present. -/
theorem mem_addToFileMap (fa : FileAnalysis) :
    ∀ (m : List FileAnalysis) (exp : ExportedItem) (a : ExportAnalysis),
      fa ∈ addToFileMap m exp a → fa.file = exp.file ∨ ∃ g ∈ m, fa.file = g.file := by
  intro m
  induction m with
  | nil =>
    intro exp a h
    simp only [addToFileMap, List.mem_singleton] at h
    subst h
    exact Or.inl rfl
  | cons g rest ih =>
    intro exp a h
    simp only [addToFileMap] at h
    split at h
    · rcases List.mem_cons.mp h with h1 | h1
      · subst h1
        exact Or.inr ⟨g, List.mem_cons_self g rest, rfl⟩
      · exact Or.inr ⟨fa, List.mem_cons_of_mem g h1, rfl⟩
    · rcases List.mem_cons.mp h with h1 | h1
      · exact Or.inr ⟨g, List.mem_cons_self g rest, by rw [h1]⟩
      · rcases ih exp a h1 with h2 | ⟨g2, hg2, h3⟩
        · exact Or.inl h2
        · exact Or.inr ⟨g2, List.mem_cons_of_mem g hg2, h3⟩

/-- Membership in the folded per-file map: every entry's file is the file of
some export of the folded list (or of the initial map). -/
theorem mem_fileMapFold (imps : List ImportReference) :
    ∀ (l : List ExportedItem) (m : List FileAnalysis) (fa : FileAnalysis),
      fa ∈ l.foldl (fun m exp => addToFileMap m exp (buildAnalysis imps exp)) m →
      (∃ g ∈ m, fa.file = g.file) ∨ ∃ e ∈ l, fa.file = e.file := by
  intro l
  induction l with
  | nil =>
    intro m fa h
    exact Or.inl ⟨fa, h, rfl⟩
  | cons e rest ih =>
    intro m fa h
    rw [List.foldl_cons] at h
    rcases ih (addToFileMap m e (buildAnalysis imps e)) fa h with ⟨g, hg, hfg⟩ | ⟨e2, he2, hfe⟩
    · rcases mem_addToFileMap g m e (buildAnalysis imps e) hg with h1 | ⟨g2, hg2, h2⟩
      · exact Or.inr ⟨e, List.mem_cons_self e rest, hfg.trans h1⟩
      · exact Or.inl ⟨g2, hg2, hfg.trans h2⟩
    · exact Or.inr ⟨e2, List.mem_cons_of_mem e he2, hfe⟩

/-- Membership after a sorted insertion. -/
theorem mem_insertByUnused (x fa : FileAnalysis) :
    ∀ l : List FileAnalysis, x ∈ insertByUnused fa l → x = fa ∨ x ∈ l := by
  intro l
  induction l with
  | nil =>
    intro h
    simp only [insertByUnused, List.mem_singleton] at h
    exact Or.inl h
  | cons g rest ih =>
    intro h
    simp only [insertByUnused] at h
    split at h
    · exact List.mem_cons.mp h
    · rcases List.mem_cons.mp h with h1 | h1
      · exact Or.inr (by rw [h1]; exact List.mem_cons_self g rest)
      · rcases ih h1 with h2 | h2
        · exact Or.inl h2
        · exact Or.inr (List.mem_cons_of_mem g h2)

/-- Membership through the sorting fold. -/
theorem mem_sortFold (x : FileAnalysis) :
    ∀ (l acc : List FileAnalysis),
      x ∈ l.foldl (fun acc fa => insertByUnused fa acc) acc → x ∈ acc ∨ x ∈ l := by
  intro l
  induction l with
  | nil =>
    intro acc h
    exact Or.inl h
  | cons fa rest ih =>
    intro acc h
    rw [List.foldl_cons] at h
    rcases ih (insertByUnused fa acc) h with h1 | h1
    · rcases mem_insertByUnused x fa acc h1 with h2 | h2
      · exact Or.inr (by rw [h2]; exact List.mem_cons_self fa rest)
      · exact Or.inl h2
    · exact Or.inr (List.mem_cons_of_mem fa h1)

/-- The stable sort permutes only: every member of the output was in the input. -/
theorem mem_sortByUnusedDesc (x : FileAnalysis) (l : List FileAnalysis)
    (h : x ∈ sortByUnusedDesc l) : x ∈ l := by
  rcases mem_sortFold x l [] h with h1 | h1
  · exact absurd h1 (List.not_mem_nil x)
  · exact h1

/-- C8: with `includeTypes = false` the analysis equals the analysis of the
pre-filtered export list (type and interface exports are removed before usage
matching, so they never contribute to any total even if imported), and a file
all of whose exports are of kind `type` or `interface` is entirely absent from
the final report's file list. -/
theorem include_types_filtering (exps : List ExportedItem) (imps : List ImportReference) :
    analyzeLists exps imps false
      = analyzeLists (exps.filter (fun e =>
          !(e.type == ExportType.type) && !(e.type == ExportType.interface))) imps true
    ∧ ∀ f : String,
        (∀ e ∈ exps, e.file = f → e.type = ExportType.type ∨ e.type = ExportType.interface) →
        f ∉ (analyzeLists exps imps false).files.map (fun fa => fa.file) := by
  constructor
  · rfl
  · intro f hall hmem
    rcases List.mem_map.mp hmem with ⟨fa, hfa, hf⟩
    simp only [analyzeLists] at hfa
    have h1 := mem_sortByUnusedDesc fa _ hfa
    have h2 := (List.mem_filter.mp h1).1
    rcases mem_fileMapFold imps _ [] fa h2 with ⟨g, hg, _⟩ | ⟨e, he, hfe⟩
    · exact absurd hg (List.not_mem_nil g)
    · have he2 := List.mem_filter.mp he
      have hpred := he2.2
      simp only [Bool.and_eq_true, Bool.not_eq_true', beq_eq_false_iff_ne] at hpred
      rcases hall e he2.1 (hfe.symm.trans hf) with ht | ht
      · exact hpred.1 ht
      · exact hpred.2 ht

/-- C8 witness: a file whose only export is an interface does not appear in
the report when `includeTypes = false`. -/
theorem include_types_filtering_witness :
    "/r/t.ts" ∉ (analyzeLists
        [{ name := "Foo", type := ExportType.interface, file := "/r/t.ts", line := 1,
           isDefault := false, estimatedSize := 12 }] [] false).files.map
      (fun fa => fa.file) :=
  (include_types_filtering
      [{ name := "Foo", type := ExportType.interface, file := "/r/t.ts", line := 1,
         isDefault := false, estimatedSize := 12 }] []).2 ("/r/t.ts") (by decide)

/-- C9: the report's global totals are the sums across all file reports,
`usedExports` is their difference, `estimatedSavings` sums the estimated sizes
over unused records only, and the concrete three-file scenario (one export per
file, never imported) yields `totalExports = 3`, `unusedExports = 3`,
`usedExports = 0` and savings equal to the sum of the three estimated sizes. -/
theorem totals_are_sums (exps : List ExportedItem) (imps : List ImportReference) (t : Bool) :
    ((analyzeLists exps imps t).totalExports
        = ((analyzeLists exps imps t).files.map (fun fa => fa.exports.length)).sum
      ∧ (analyzeLists exps imps t).unusedExports
        = ((analyzeLists exps imps t).files.map (fun fa => fa.unusedCount)).sum
      ∧ (analyzeLists exps imps t).usedExports
        = (analyzeLists exps imps t).totalExports - (analyzeLists exps imps t).unusedExports
      ∧ (analyzeLists exps imps t).estimatedSavings
        = ((analyzeLists exps imps t).files.map (fun fa =>
            ((fa.exports.filter (fun r => r.isUnused)).map
              (fun r => r.«export».estimatedSize)).sum)).sum)
    ∧ ((analyzeExportsCore (["/r/a.ts", "/r/b.ts", "/r/c.ts"]) ("/r") false
          [("/r/a.ts", some ("export const alpha = 1;\n")),
           ("/r/b.ts", some ("export const beta = 2;\n")),
           ("/r/c.ts", some ("export const gamma = 3;\n"))]).totalExports = 3
      ∧ (analyzeExportsCore (["/r/a.ts", "/r/b.ts", "/r/c.ts"]) ("/r") false
          [("/r/a.ts", some ("export const alpha = 1;\n")),
           ("/r/b.ts", some ("export const beta = 2;\n")),
           ("/r/c.ts", some ("export const gamma = 3;\n"))]).unusedExports = 3
      ∧ (analyzeExportsCore (["/r/a.ts", "/r/b.ts", "/r/c.ts"]) ("/r") false
          [("/r/a.ts", some ("export const alpha = 1;\n")),
           ("/r/b.ts", some ("export const beta = 2;\n")),
           ("/r/c.ts", some ("export const gamma = 3;\n"))]).usedExports = 0
      ∧ (analyzeExportsCore (["/r/a.ts", "/r/b.ts", "/r/c.ts"]) ("/r") false
          [("/r/a.ts", some ("export const alpha = 1;\n")),
           ("/r/b.ts", some ("export const beta = 2;\n")),
           ("/r/c.ts", some ("export const gamma = 3;\n"))]).estimatedSavings
        = estimateSize ("export const alpha = 1;\n")
          + estimateSize ("export const beta = 2;\n")
          + estimateSize ("export const gamma = 3;\n")) := by
  refine ⟨⟨?_, ?_, ?_, ?_⟩, by decide⟩
  · simp only [analyzeLists, foldl_add_map, Nat.zero_add]
  · simp only [analyzeLists, foldl_add_map, Nat.zero_add]
  · simp only [analyzeLists]
  · simp only [analyzeLists, foldl_add_map, Nat.zero_add]
